import Mathlib

/-!
Shallow embedding of the contact-management program in `src/main.py`
(classes `Field`, `Name`, `Phone`, `Birthday`, `Record`, `AddressBook`).

Python exceptions are modelled by `Except PyError`; setters that validate
before storing become functions returning `Except PyError` of the stored
value.  All field values the program itself constructs are strings, so the
embedding types field payloads as `String`.
-/

/-- The Python exceptions raised by the program or by the library calls it
makes (`ValueError`, `TypeError`, `KeyError`, `PermissionError`). -/
inductive PyError where
  | valueError (msg : String)
  | typeError (msg : String)
  | keyError (key : String)
  | permissionError
deriving Repr, DecidableEq

deriving instance DecidableEq for Except

/-- `Field._validate` in `main.py`: the base validation accepts anything. -/
def fieldValidate (_ : String) : Bool := true

/-- The `Field.value` setter (used unchanged by `Name`): stores the value if
`_validate` holds, else raises `ValueError`.  Since `fieldValidate` is
constantly true, this never fails. -/
def nameSet (v : String) : Except PyError String :=
  if fieldValidate v then .ok v
  else .error (.valueError "Invalid value for Name.")

/-- Python's `str.isdigit` on one character.  Besides the ASCII decimal
digits it accepts further Unicode digit characters (Numeric_Type=Digit);
the model includes the ASCII digits and the Latin-1 superscript digits
¹ (U+00B9), ² (U+00B2), ³ (U+00B3), which Python documents as digits and
which suffice for the behaviours claimed. -/
def pyCharIsDigit (c : Char) : Bool :=
  c.isDigit || c = '¹' || c = '²' || c = '³'

/-- Python's `str.isdigit`: nonempty and every character is a digit. -/
def pyStrIsDigit (s : String) : Bool :=
  !s.isEmpty && s.toList.all pyCharIsDigit

/-- The `Phone.value` setter in `main.py`: a truthy (nonempty) string is
stored iff it is a string of length 10 all of whose characters satisfy
`str.isdigit`; a falsy value stores `""`. -/
def phoneSet (v : String) : Except PyError String :=
  if v ≠ "" then
    if v.length = 10 && pyStrIsDigit v then .ok v
    else .error (.valueError "Invalid phone number format.")
  else .ok ""

/-! ## Calendar dates (`datetime.date`) -/

/-- A Python `datetime.date`: a calendar date with `1 ≤ year ≤ 9999`. -/
structure PyDate where
  year : Nat
  month : Nat
  day : Nat
deriving Repr, DecidableEq

/-- Gregorian leap year, as the `datetime` module computes it. -/
def isLeap (y : Nat) : Bool :=
  (y % 4 == 0 && y % 100 != 0) || y % 400 == 0

/-- Days in a month of a given year (the `datetime` module's table). -/
def daysInMonth (y m : Nat) : Nat :=
  if m = 2 then (if isLeap y then 29 else 28)
  else if m = 4 ∨ m = 6 ∨ m = 9 ∨ m = 11 then 30
  else 31

/-- The dates `datetime.date` accepts: year in `MINYEAR..MAXYEAR`
(1..9999), month 1..12, day within the month. -/
def validDate (y m d : Nat) : Bool :=
  1 ≤ y && y ≤ 9999 && 1 ≤ m && m ≤ 12 && 1 ≤ d && d ≤ daysInMonth y m

/-! ## Decimal numerals, as Python renders and parses them -/

/-- The ASCII digit character for `n < 10`. -/
def digitChar (n : Nat) : Char := Char.ofNat (48 + n)

/-- Worker for `natDigits`; the fuel only bounds the recursion depth
(one division by 10 per step) and is irrelevant once it is at least the
argument, see `natDigitsAux_congr`. -/
def natDigitsAux : Nat → Nat → List Char
  | 0, n => [digitChar n]
  | fuel + 1, n =>
    if n < 10 then [digitChar n]
    else natDigitsAux fuel (n / 10) ++ [digitChar (n % 10)]

/-- Decimal digits of `n`, most significant first, no leading zeros
(the rendering of a Python `int`, and of `strftime`'s unpadded `%Y`). -/
def natDigits (n : Nat) : List Char := natDigitsAux n n

/-- Numeric value of a list of ASCII digit characters (Python `int(...)`
on the digit groups captured by `strptime`). -/
def digitsVal (cs : List Char) : Nat :=
  cs.foldl (fun a c => a * 10 + (c.toNat - 48)) 0

/-- Zero-padded two-digit rendering (`strftime` `%d` and `%m`). -/
def pad2 (n : Nat) : List Char :=
  if n < 10 then ['0', digitChar n] else natDigits n

/-- `date.strftime("%d.%m.%Y")`: day and month zero-padded to two digits;
the year is passed to the platform C library's `%Y`, which renders the
decimal value without zero padding (so year 90 renders as `"90"`, as
CPython on glibc produces). -/
def formatDMY (d : PyDate) : String :=
  ⟨pad2 d.day ++ '.' :: (pad2 d.month ++ '.' :: natDigits d.year)⟩

/-! ## Parsing `"%d.%m.%Y"` (`datetime.strptime`) -/

/-- Split a character list at every `'.'` (the format string's literal
dots; the digit groups of `%d`, `%m`, `%Y` never contain a dot, so
`strptime`'s regex match decomposes the input exactly this way). -/
def splitDots : List Char → List (List Char)
  | [] => [[]]
  | c :: rest =>
    match splitDots rest with
    | [] => [[]]
    | h :: t => if c = '.' then [] :: h :: t else (c :: h) :: t

/-- The digit group `strptime` accepts for a 1-2 digit field: `%d`
compiles to the regex `3[01]|[12]\d|0[1-9]|[1-9]` and `%m` to
`1[0-2]|0[1-9]|[1-9]`; both match exactly the all-digit strings of
length 1 with value 1-9 or length 2 with value 1..`hi`. -/
def fieldPat (hi : Nat) (cs : List Char) : Bool :=
  cs.all Char.isDigit &&
    ((cs.length == 1 && 1 ≤ digitsVal cs && digitsVal cs ≤ 9) ||
     (cs.length == 2 && 1 ≤ digitsVal cs && digitsVal cs ≤ hi))

/-- The digit group for `%Y`: `strptime` compiles it to exactly four
digits (`\d\d\d\d`). -/
def yearPat (cs : List Char) : Bool :=
  cs.length == 4 && cs.all Char.isDigit

/-- `datetime.strptime(s, "%d.%m.%Y")` followed by `.date()`: the regex
must match the whole string, and the captured values must form a valid
calendar date, else `ValueError`. -/
def strptimeDMY (s : String) : Except PyError PyDate :=
  match splitDots s.toList with
  | [ds, ms, ys] =>
    if fieldPat 31 ds && fieldPat 12 ms && yearPat ys then
      if validDate (digitsVal ys) (digitsVal ms) (digitsVal ds) then
        .ok ⟨digitsVal ys, digitsVal ms, digitsVal ds⟩
      else .error (.valueError "day is out of range for month")
    else .error (.valueError "time data does not match format")
  | _ => .error (.valueError "time data does not match format")

/-! ## The `Birthday` field -/

/-- The `Birthday.value` setter: a truthy (nonempty) string is parsed
with `strptime("%d.%m.%Y")` and the resulting `date` is stored (any
parse failure is re-raised as the class's own `ValueError`); a falsy
value stores `""`.  The stored representation is therefore a calendar
date (`some d`) or the unset sentinel (`none`), never the input string. -/
def birthdaySet (v : String) : Except PyError (Option PyDate) :=
  if v ≠ "" then
    match strptimeDMY v with
    | .ok d => .ok (some d)
    | .error _ => .error (.valueError "Invalid date format. Please use DD.MM.YYYY.")
  else .ok none

/-- `Birthday.__str__`: render the stored date with
`strftime("%d.%m.%Y")`, or `""` when unset. -/
def birthdayStr : Option PyDate → String
  | none => ""
  | some d => formatDMY d

/-! ## `datetime.datetime` and the mixed comparisons in `days_to_birthday` -/

/-- A Python `datetime.datetime` as `datetime.today()` returns it: a
calendar date plus a time of day (microseconds since midnight). -/
structure PyDateTime where
  date : PyDate
  usecOfDay : Nat
deriving Repr, DecidableEq

/-- `date.replace(year=y)`: keeps month and day, revalidates the result
(`ValueError` e.g. for Feb 29 mapped into a non-leap year). -/
def pyDateReplaceYear (d : PyDate) (y : Nat) : Except PyError PyDate :=
  if validDate y d.month d.day then .ok ⟨y, d.month, d.day⟩
  else .error (.valueError "day is out of range for month")

/-- `datetime > date` in CPython: `datetime.__gt__` accepts only another
`datetime`; against a plain `date` it raises
`TypeError: can't compare datetime.datetime to datetime.date`. -/
def pyGtDatetimeDate (_t : PyDateTime) (_d : PyDate) : Except PyError Bool :=
  .error (.typeError "can't compare datetime.datetime to datetime.date")

/-- `date - datetime` in CPython: no such operand pairing is defined, so
it raises a `TypeError`. -/
def pySubDateDatetime (_d : PyDate) (_t : PyDateTime) : Except PyError Int :=
  .error (.typeError "unsupported operand type(s) for -: 'datetime.date' and 'datetime.datetime'")

/-! ## `Record` -/

/-- A `Record`: a `Name` (its stored string), the ordered list of `Phone`
values, and the `Birthday` (a date or the unset sentinel). -/
structure Record where
  name : String
  phones : List String
  birthday : Option PyDate
deriving Repr, DecidableEq

/-- A Python comprehension or loop that applies a fallible operation to
each element left to right, raising at the first failure. -/
def exceptMap {α β : Type} (f : α → Except PyError β) : List α → Except PyError (List β)
  | [] => .ok []
  | x :: xs => do .ok ((← f x) :: (← exceptMap f xs))

/-- `Record.__init__(name, phones=None, birthday="")`: the name is stored
through `Name` (never fails), each initial phone is run through the
`Phone` constructor in order (first invalid one raises), and the
birthday string through `Birthday`.  The initial phone list is stored
as given — there is no duplicate check in the constructor. -/
def mkRecord (name : String) (phones : List String) (birthday : String) :
    Except PyError Record := do
  let n ← nameSet name
  let ps ← exceptMap phoneSet phones
  let b ← birthdaySet birthday
  .ok ⟨n, ps, b⟩

/-- `Record.add_phone`: appends a new `Phone` only when no stored phone
already has this value; when the value is already present nothing is
constructed or validated and the record is returned unchanged. -/
def Record.add_phone (r : Record) (phone : String) : Except PyError Record :=
  if r.phones.contains phone then .ok r
  else do
    let p ← phoneSet phone
    .ok { r with phones := r.phones ++ [p] }

/-- The `for` loop of `Record.edit_phone` over the phone list: at the
first phone whose value equals `oldP`, assign `newP` through the `Phone`
setter (which validates before storing, so an invalid `newP` raises and
nothing is modified) and stop; falling off the end raises
`ValueError("Phone number not found.")`. -/
def editPhones (oldP newP : String) : List String → Except PyError (List String)
  | [] => .error (.valueError "Phone number not found.")
  | p :: rest =>
    if p = oldP then do
      let v ← phoneSet newP
      .ok (v :: rest)
    else do
      let rest' ← editPhones oldP newP rest
      .ok (p :: rest')

/-- `Record.edit_phone`: runs the loop above on the record's phones. -/
def Record.edit_phone (r : Record) (oldP newP : String) : Except PyError Record := do
  .ok { r with phones := ← editPhones oldP newP r.phones }

/-- `Record.days_to_birthday`: with an unset birthday returns `None`;
with a set birthday it builds `birthday.replace(year=today.year)` (a
`date`) and then evaluates `today > next_birthday_date` where `today`
is the `datetime` from `datetime.today()` — a mixed
`datetime`-vs-`date` comparison.  The remaining lines mirror the
source; they are unreachable because the comparison raises. -/
def Record.days_to_birthday (r : Record) (today : PyDateTime) :
    Except PyError (Option Int) := do
  match r.birthday with
  | none => .ok none
  | some b =>
    let nb ← pyDateReplaceYear b today.date.year
    let gt ← pyGtDatetimeDate today nb
    let nb2 ← if gt then pyDateReplaceYear b (today.date.year + 1) else .ok nb
    let diff ← pySubDateDatetime nb2 today
    .ok (some diff)

/-! ## `AddressBook` -/

/-- An `AddressBook`: the `UserDict` data — an insertion-ordered map
from name to `Record` — plus the pagination settings set in
`__init__`. -/
structure AddressBook where
  data : List (String × Record)
  records_per_page : Nat
  current_record : Nat
deriving Repr, DecidableEq

/-- `AddressBook()`: empty data, `records_per_page = 3`,
`current_record = 0`. -/
def AddressBook.empty : AddressBook := ⟨[], 3, 0⟩

/-- `self.data.get(name, ...)` on the ordered map. -/
def lookupName (data : List (String × Record)) (n : String) : Option Record :=
  (data.find? (·.1 = n)).map (·.2)

/-- `AddressBook.add_record`: inserts keyed by `record.name.value` only
when `self.data.get(name, "") == ""`.  The stored values are always
`Record` objects and a `Record` never compares equal to `""`, so the
test holds exactly when the key is absent; a Python dict insertion of a
fresh key appends in iteration order. -/
def AddressBook.add_record (book : AddressBook) (r : Record) : AddressBook :=
  match lookupName book.data r.name with
  | none => { book with data := book.data ++ [(r.name, r)] }
  | some _ => book

/-- The effective batch size of `AddressBook.iterator`:
`batch_size = batch_size or self.records_per_page` replaces a falsy
argument (absent, i.e. `None`, or `0`) by `records_per_page`. -/
def effBatch (book : AddressBook) : Option Nat → Nat
  | none => book.records_per_page
  | some 0 => book.records_per_page
  | some (n + 1) => n + 1

/-- Worker for `chunks`; the fuel only bounds the recursion depth and is
irrelevant once it reaches the list length (each step drops at least
one element when `0 < bs`). -/
def chunksAux : Nat → Nat → List Record → List (List Record)
  | _, _, [] => []
  | 0, _, _ :: _ => []
  | fuel + 1, bs, x :: xs => (x :: xs).take bs :: chunksAux fuel bs ((x :: xs).drop bs)

/-- The slices `records[i:i + batch_size]` for `i` in
`range(0, len(records), batch_size)`, in order. -/
def chunks (bs : Nat) (xs : List Record) : List (List Record) :=
  chunksAux xs.length bs xs

/-- `AddressBook.iterator(batch_size=None)`: lists `self.data.values()`
(insertion order) and yields the consecutive slices of the effective
batch size.  `range` with step `0` raises a `ValueError`; with a
positive step the generator is finite. -/
def AddressBook.iterator (book : AddressBook) (batchSize : Option Nat) :
    Except PyError (List (List Record)) :=
  let bs := effBatch book batchSize
  if bs = 0 then .error (.valueError "range() arg 3 must not be zero")
  else .ok (chunks bs (book.data.map (·.2)))

/-! ## Persistence (`save_to_file` / `load_from_file`) -/

/-- The Python values handed to `json.dump`: the JSON-encodable kinds the
program uses (`None`, `str`, `int`, `list`, `dict`) plus arbitrary class
instances (`pobj`, carrying the class name and the `__dict__`). -/
inductive PyVal where
  | pnone
  | pstr (s : String)
  | pint (n : Int)
  | plist (xs : List PyVal)
  | pdict (kvs : List (String × PyVal))
  | pobj (cls : String) (attrs : List (String × PyVal))
deriving Repr

/-- A JSON document as `json.dump` writes / `json.load` reads it. -/
inductive Json where
  | null
  | str (s : String)
  | num (n : Int)
  | arr (xs : List Json)
  | obj (kvs : List (String × Json))
deriving Repr

mutual

/-- `json.dump` (the default encoder): serializes `None`, strings, ints,
lists and dicts, recursing in order; any other object raises
`TypeError: Object of type <cls> is not JSON serializable`. -/
def jsonDump : PyVal → Except PyError Json
  | .pnone => .ok .null
  | .pstr s => .ok (.str s)
  | .pint n => .ok (.num n)
  | .plist xs => do .ok (.arr (← jsonDumpList xs))
  | .pdict kvs => do .ok (.obj (← jsonDumpKVs kvs))
  | .pobj cls _ => .error (.typeError ("Object of type " ++ cls ++ " is not JSON serializable"))

/-- `json.dump` over the elements of a list, left to right. -/
def jsonDumpList : List PyVal → Except PyError (List Json)
  | [] => .ok []
  | v :: vs => do .ok ((← jsonDump v) :: (← jsonDumpList vs))

/-- `json.dump` over the entries of a dict, in iteration order. -/
def jsonDumpKVs : List (String × PyVal) → Except PyError (List (String × Json))
  | [] => .ok []
  | (k, v) :: kvs => do .ok ((k, (← jsonDump v)) :: (← jsonDumpKVs kvs))

end

/-- `record.__dict__` as `save_to_file` reads it: the attribute map of a
`Record`, whose values are the `Name`, `Phone` and `Birthday` *objects*
(class instances, not plain strings).  `Field.__init__` first writes the
mangled `_Field__value = None` before the subclass setter stores into its
own mangled slot, so the phone and birthday objects carry both. -/
def Record.pyDict (r : Record) : PyVal :=
  .pdict
    [("name", .pobj "Name" [("_Field__value", .pstr r.name)]),
     ("phones", .plist (r.phones.map fun p =>
        .pobj "Phone" [("_Field__value", .pnone), ("_Phone__value", .pstr p)])),
     ("birthday", .pobj "Birthday"
        [("_Field__value", .pnone),
         ("_Birthday__value", match r.birthday with
           | none => .pstr ""
           | some d => .pobj "date"
               [("year", .pint d.year), ("month", .pint d.month), ("day", .pint d.day)])])]

/-- `AddressBook.save_to_file`: builds
`{'records_per_page': ..., 'current_record': ..., 'data': {name: record.__dict__}}`
and hands it to `json.dump`; the result is the written JSON document, or
the `TypeError` the encoder raises. -/
def AddressBook.save_to_file (book : AddressBook) : Except PyError Json :=
  jsonDump (.pdict
    [("records_per_page", .pint book.records_per_page),
     ("current_record", .pint book.current_record),
     ("data", .pdict (book.data.map fun nr => (nr.1, nr.2.pyDict)))])

/-- What opening and `json.load`-ing the backing file can yield: the file
is absent (`open` raises `FileNotFoundError`), unreadable (`open` raises
`PermissionError`), present but not syntactically valid JSON
(`json.load` raises `json.JSONDecodeError`), or a parsed JSON document. -/
inductive FileReadResult where
  | missing
  | unreadable
  | notJson (raw : String)
  | parsed (j : Json)
deriving Repr

/-- `data[key]` on a JSON object: `KeyError` when absent. -/
def jsonGet (kvs : List (String × Json)) (k : String) : Except PyError Json :=
  match kvs.find? (·.1 = k) with
  | some kv => .ok kv.2
  | none => .error (.keyError k)

/-- A JSON value used as one of the program's numeric settings.  The
embedding types `records_per_page`/`current_record` as `Nat`, the only
values the program itself writes. -/
def jsonToNat : Json → Except PyError Nat
  | .num n => if 0 ≤ n then .ok n.toNat else .error (.valueError "negative setting not modelled")
  | _ => .error (.typeError "setting is not an int")

/-- A JSON value used as a string. -/
def jsonToStr : Json → Except PyError String
  | .str s => .ok s
  | _ => .error (.typeError "expected a string")

/-- `Record(**record_data)`: `name` is a required keyword argument
(`TypeError` when missing), `phones` defaults to `None` (then `[]`) and
`birthday` to `""`; the values then pass through `Record.__init__` with
its `Phone`/`Birthday` validation. -/
def recordOfJson (j : Json) : Except PyError Record :=
  match j with
  | .obj kvs => do
    let name ←
      match kvs.find? (·.1 = "name") with
      | some kv => jsonToStr kv.2
      | none => .error (.typeError "Record() missing 1 required positional argument: 'name'")
    let phones ←
      match kvs.find? (·.1 = "phones") with
      | some kv =>
        match kv.2 with
        | .arr xs => exceptMap jsonToStr xs
        | .null => .ok []
        | _ => .error (.typeError "'phones' is not iterable")
      | none => .ok []
    let bday ←
      match kvs.find? (·.1 = "birthday") with
      | some kv => jsonToStr kv.2
      | none => .ok ""
    mkRecord name phones bday
  | _ => .error (.typeError "argument of type mapping expected")

/-- The body of the `try` block of `load_from_file` once `json.load` has
produced a document: subscript the three keys (a `KeyError` or type
error here is *not* caught by the surrounding handler) and rebuild
`self.data` with `Record(**record_data)` per entry. -/
def loadJson (j : Json) : Except PyError AddressBook :=
  match j with
  | .obj kvs => do
    let rpp ← jsonGet kvs "records_per_page" >>= jsonToNat
    let cur ← jsonGet kvs "current_record" >>= jsonToNat
    let dat ←
      match ← jsonGet kvs "data" with
      | .obj dkvs => exceptMap (fun nr => do .ok (nr.1, ← recordOfJson nr.2)) dkvs
      | _ => .error (.typeError "'data' is not a dict")
    .ok ⟨dat, rpp, cur⟩
  | _ => .error (.typeError "json document is not subscriptable")

/-- `AddressBook.load_from_file`: the `except` clause catches exactly
`FileNotFoundError` and `json.JSONDecodeError` and ignores them, leaving
the book as it was; any other exception (an unreadable file's
`PermissionError`, or a `KeyError`/`TypeError`/`ValueError` from a
document of the wrong shape) propagates to the caller. -/
def AddressBook.load_from_file (book : AddressBook) (file : FileReadResult) :
    Except PyError AddressBook :=
  match file with
  | .missing => .ok book
  | .notJson _ => .ok book
  | .unreadable => .error .permissionError
  | .parsed j => loadJson j

/-! ## Lemmas about decimal numerals -/

theorem digitChar_toNat {d : Nat} (h : d < 10) : (digitChar d).toNat = 48 + d := by
  interval_cases d <;> decide

theorem digitChar_isDigit {d : Nat} (h : d < 10) : (digitChar d).isDigit = true := by
  interval_cases d <;> decide

theorem isDigit_ne_dot {c : Char} (h : c.isDigit = true) : c ≠ '.' := by
  intro he
  subst he
  exact absurd h (by decide)

theorem natDigitsAux_small (fuel n : Nat) (h : n < 10) :
    natDigitsAux fuel n = [digitChar n] := by
  cases fuel with
  | zero => rfl
  | succ fuel => simp [natDigitsAux, h]

theorem natDigitsAux_congr :
    ∀ (fuel fuel' n : Nat), n ≤ fuel → n ≤ fuel' →
      natDigitsAux fuel n = natDigitsAux fuel' n := by
  intro fuel
  induction fuel with
  | zero =>
    intro fuel' n h h'
    have hn : n = 0 := Nat.le_zero.mp h
    subst hn
    rw [natDigitsAux_small 0 0 (by decide), natDigitsAux_small fuel' 0 (by decide)]
  | succ fuel ih =>
    intro fuel' n h h'
    by_cases h10 : n < 10
    · rw [natDigitsAux_small _ _ h10, natDigitsAux_small _ _ h10]
    · cases fuel' with
      | zero =>
        have : n = 0 := Nat.le_zero.mp h'
        omega
      | succ fuel' =>
        simp only [natDigitsAux, if_neg h10]
        have hdiv : n / 10 < n := Nat.div_lt_self (by omega) (by omega)
        rw [ih fuel' (n / 10) (by omega) (by omega)]

theorem natDigits_step (n : Nat) :
    natDigits n =
      if n < 10 then [digitChar n]
      else natDigits (n / 10) ++ [digitChar (n % 10)] := by
  by_cases h : n < 10
  · rw [if_pos h]
    exact natDigitsAux_small n n h
  · rw [if_neg h]
    obtain ⟨m, rfl⟩ : ∃ m, n = m + 1 := ⟨n - 1, by omega⟩
    show natDigitsAux (m + 1) (m + 1) = _
    simp only [natDigitsAux, if_neg h]
    have hdiv : (m + 1) / 10 < m + 1 := Nat.div_lt_self (by omega) (by omega)
    rw [natDigitsAux_congr m ((m + 1) / 10) ((m + 1) / 10) (by omega) (le_refl _)]
    rfl

theorem natDigits_ne_nil (n : Nat) : natDigits n ≠ [] := by
  rw [natDigits_step]
  by_cases h : n < 10 <;> simp [h]

theorem digitsVal_append_single (cs : List Char) (c : Char) :
    digitsVal (cs ++ [c]) = digitsVal cs * 10 + (c.toNat - 48) := by
  simp [digitsVal, List.foldl_append]

theorem digitsVal_natDigits : ∀ n : Nat, digitsVal (natDigits n) = n := by
  intro n
  induction n using Nat.strong_induction_on with
  | _ n ih =>
    rw [natDigits_step]
    by_cases h : n < 10
    · rw [if_pos h]
      simp [digitsVal, digitChar_toNat h]
    · rw [if_neg h, digitsVal_append_single,
        ih (n / 10) (Nat.div_lt_self (by omega) (by omega)),
        digitChar_toNat (Nat.mod_lt n (by omega))]
      omega

theorem natDigits_all_isDigit : ∀ n : Nat, (natDigits n).all Char.isDigit = true := by
  intro n
  induction n using Nat.strong_induction_on with
  | _ n ih =>
    rw [natDigits_step]
    by_cases h : n < 10
    · simp [h, digitChar_isDigit h]
    · rw [if_neg h]
      simp [List.all_append, ih (n / 10) (Nat.div_lt_self (by omega) (by omega)),
        digitChar_isDigit (Nat.mod_lt n (by omega))]

theorem natDigits_length :
    ∀ (k n : Nat), 10 ^ k ≤ n → n < 10 ^ (k + 1) → (natDigits n).length = k + 1 := by
  intro k
  induction k with
  | zero =>
    intro n h1 h2
    rw [natDigits_step, if_pos (by simpa using h2)]
    rfl
  | succ k ih =>
    intro n h1 h2
    have h10 : ¬n < 10 := by
      have : (10 : Nat) ≤ 10 ^ (k + 1) := by
        calc (10 : Nat) = 10 ^ 1 := (pow_one 10).symm
        _ ≤ 10 ^ (k + 1) := Nat.pow_le_pow_right (by omega) (by omega)
      omega
    rw [natDigits_step, if_neg h10, List.length_append]
    have hlo : 10 ^ k ≤ n / 10 := by
      rw [Nat.le_div_iff_mul_le (by omega)]
      calc 10 ^ k * 10 = 10 ^ (k + 1) := (pow_succ 10 k).symm
      _ ≤ n := h1
    have hhi : n / 10 < 10 ^ (k + 1) := by
      rw [Nat.div_lt_iff_lt_mul (by omega)]
      calc n < 10 ^ (k + 2) := h2
      _ = 10 ^ (k + 1) * 10 := pow_succ 10 (k + 1)
    rw [ih (n / 10) hlo hhi]
    rfl

/-! ## Lemmas about `pad2`, `splitDots` and the `%d.%m.%Y` round trip -/

theorem pad2_all_isDigit (n : Nat) : (pad2 n).all Char.isDigit = true := by
  unfold pad2
  by_cases h : n < 10
  · simp [h, digitChar_isDigit h]
  · simp [h, natDigits_all_isDigit n]

theorem pad2_length {n : Nat} (h : n ≤ 99) : (pad2 n).length = 2 := by
  unfold pad2
  by_cases h10 : n < 10
  · simp [h10]
  · rw [if_neg h10]
    exact natDigits_length 1 n (by omega) (by norm_num; omega)

theorem digitsVal_pad2 (n : Nat) : digitsVal (pad2 n) = n := by
  unfold pad2
  by_cases h10 : n < 10
  · simp [h10, digitsVal, digitChar_toNat h10]
  · rw [if_neg h10]
    exact digitsVal_natDigits n

theorem pad2_ne_nil (n : Nat) : pad2 n ≠ [] := by
  unfold pad2
  by_cases h : n < 10
  · simp [h]
  · simp [h, natDigits_ne_nil n]

theorem splitDots_ne_nil : ∀ cs : List Char, splitDots cs ≠ [] := by
  intro cs
  induction cs with
  | nil => simp [splitDots]
  | cons c rest ih =>
    simp only [splitDots]
    cases hs : splitDots rest with
    | nil => simp
    | cons h t =>
      by_cases hc : c = '.' <;> simp [hc]

theorem splitDots_no_dot :
    ∀ cs : List Char, (∀ c ∈ cs, c ≠ '.') → splitDots cs = [cs] := by
  intro cs
  induction cs with
  | nil => intro _; rfl
  | cons c rest ih =>
    intro hnd
    have hrest := ih (fun x hx => hnd x (List.mem_cons_of_mem c hx))
    simp only [splitDots, hrest]
    rw [if_neg (hnd c (List.mem_cons_self c rest))]

theorem splitDots_append :
    ∀ (a rest : List Char), (∀ c ∈ a, c ≠ '.') →
      splitDots (a ++ '.' :: rest) = a :: splitDots rest := by
  intro a
  induction a with
  | nil =>
    intro rest _
    simp only [List.nil_append, splitDots]
    cases hs : splitDots rest with
    | nil => exact absurd hs (splitDots_ne_nil rest)
    | cons h t => simp
  | cons c a ih =>
    intro rest hnd
    have hstep := ih rest (fun x hx => hnd x (List.mem_cons_of_mem c hx))
    have hcons : splitDots ((c :: a) ++ '.' :: rest)
        = match splitDots (a ++ '.' :: rest) with
          | [] => [[]]
          | h :: t => if c = '.' then [] :: h :: t else (c :: h) :: t := rfl
    rw [hcons, hstep]
    show (if c = '.' then [] :: a :: splitDots rest else (c :: a) :: splitDots rest)
        = (c :: a) :: splitDots rest
    rw [if_neg (hnd c (List.mem_cons_self c a))]

theorem all_isDigit_no_dot {cs : List Char} (h : cs.all Char.isDigit = true) :
    ∀ c ∈ cs, c ≠ '.' := by
  intro c hc
  exact isDigit_ne_dot (List.all_eq_true.mp h c hc)

theorem daysInMonth_le_31 (y m : Nat) : daysInMonth y m ≤ 31 := by
  unfold daysInMonth
  by_cases h2 : m = 2
  · rw [if_pos h2]
    by_cases hl : isLeap y = true <;> simp [hl]
  · rw [if_neg h2]
    by_cases h30 : m = 4 ∨ m = 6 ∨ m = 9 ∨ m = 11 <;> simp [h30]

/-- The `%d.%m.%Y` round trip for the strings the program itself writes:
parsing the rendering of a valid date with a four-digit year (1000-9999)
recovers the date. -/
theorem strptime_format {y m d : Nat}
    (hv : validDate y m d = true) (hy : 1000 ≤ y) :
    strptimeDMY (formatDMY ⟨y, m, d⟩) = .ok ⟨y, m, d⟩ := by
  have hvp := hv
  unfold validDate at hvp
  simp only [Bool.and_eq_true, decide_eq_true_eq] at hvp
  obtain ⟨⟨⟨⟨⟨hy1, hy2⟩, hm1⟩, hm2⟩, hd1⟩, hd2⟩ := hvp
  have hd31 : d ≤ 31 := le_trans hd2 (daysInMonth_le_31 y m)
  have htl : (formatDMY ⟨y, m, d⟩).toList
      = pad2 d ++ '.' :: (pad2 m ++ '.' :: natDigits y) := by
    show (String.mk (pad2 d ++ '.' :: (pad2 m ++ '.' :: natDigits y))).toList = _
    rfl
  have hsplit : splitDots ((formatDMY ⟨y, m, d⟩).toList)
      = [pad2 d, pad2 m, natDigits y] := by
    rw [htl,
      splitDots_append (pad2 d) _ (all_isDigit_no_dot (pad2_all_isDigit d)),
      splitDots_append (pad2 m) _ (all_isDigit_no_dot (pad2_all_isDigit m)),
      splitDots_no_dot (natDigits y) (all_isDigit_no_dot (natDigits_all_isDigit y))]
  have hvd : digitsVal (pad2 d) = d := digitsVal_pad2 d
  have hvm : digitsVal (pad2 m) = m := digitsVal_pad2 m
  have hvy : digitsVal (natDigits y) = y := digitsVal_natDigits y
  have hfd : fieldPat 31 (pad2 d) = true := by
    unfold fieldPat
    rw [hvd, pad2_length (by omega), pad2_all_isDigit d]
    simp
    omega
  have hfm : fieldPat 12 (pad2 m) = true := by
    unfold fieldPat
    rw [hvm, pad2_length (by omega), pad2_all_isDigit m]
    simp
    omega
  have hfy : yearPat (natDigits y) = true := by
    unfold yearPat
    rw [natDigits_length 3 y (by norm_num; omega) (by norm_num; omega),
      natDigits_all_isDigit y]
    simp
  unfold strptimeDMY
  rw [hsplit]
  simp only [hfd, hfm, hfy, Bool.and_self, if_true, hvd, hvm, hvy, hv, if_pos]

/-! ## Lemmas about pagination chunks -/

theorem chunksAux_flatten :
    ∀ (fuel bs : Nat) (xs : List Record), 0 < bs → xs.length ≤ fuel →
      (chunksAux fuel bs xs).flatten = xs := by
  intro fuel
  induction fuel with
  | zero =>
    intro bs xs _ hlen
    cases xs with
    | nil => rfl
    | cons x l => simp at hlen
  | succ fuel ih =>
    intro bs xs hbs hlen
    cases xs with
    | nil => rfl
    | cons x l =>
      show ((x :: l).take bs :: chunksAux fuel bs ((x :: l).drop bs)).flatten = x :: l
      have hlen' : ((x :: l).drop bs).length ≤ fuel := by
        simp only [List.length_cons] at hlen
        simp only [List.length_drop, List.length_cons]
        omega
      rw [List.flatten_cons, ih bs ((x :: l).drop bs) hbs hlen']
      exact List.take_append_drop bs (x :: l)

theorem chunksAux_mem :
    ∀ (fuel bs : Nat) (xs b : List Record), 0 < bs → xs.length ≤ fuel →
      b ∈ chunksAux fuel bs xs → b ≠ [] ∧ b.length ≤ bs := by
  intro fuel
  induction fuel with
  | zero =>
    intro bs xs b _ hlen hmem
    cases xs with
    | nil => simp [chunksAux] at hmem
    | cons x l => simp at hlen
  | succ fuel ih =>
    intro bs xs b hbs hlen hmem
    cases xs with
    | nil => simp [chunksAux] at hmem
    | cons x l =>
      have hstep : chunksAux (fuel + 1) bs (x :: l)
          = (x :: l).take bs :: chunksAux fuel bs ((x :: l).drop bs) := rfl
      rw [hstep] at hmem
      rcases List.mem_cons.mp hmem with h | h
      · subst h
        constructor
        · obtain ⟨b', rfl⟩ : ∃ b', bs = b' + 1 := ⟨bs - 1, by omega⟩
          simp [List.take_succ_cons]
        · have := List.length_take bs (x :: l)
          omega
      · refine ih bs _ b hbs ?_ h
        simp only [List.length_cons] at hlen
        simp only [List.length_drop, List.length_cons]
        omega

theorem chunks_flatten (bs : Nat) (hbs : 0 < bs) (xs : List Record) :
    (chunks bs xs).flatten = xs :=
  chunksAux_flatten xs.length bs xs hbs (le_refl _)

theorem chunks_mem (bs : Nat) (hbs : 0 < bs) (xs b : List Record)
    (hmem : b ∈ chunks bs xs) : b ≠ [] ∧ b.length ≤ bs :=
  chunksAux_mem xs.length bs xs b hbs (le_refl _) hmem

/-! ## Lemmas about the `edit_phone` loop -/

theorem editPhones_not_found :
    ∀ (ps : List String) (oldP newP : String), (∀ p ∈ ps, p ≠ oldP) →
      editPhones oldP newP ps = .error (.valueError "Phone number not found.") := by
  intro ps oldP newP
  induction ps with
  | nil => intro _; rfl
  | cons p rest ih =>
    intro h
    have hp : p ≠ oldP := h p (List.mem_cons_self p rest)
    simp only [editPhones, if_neg hp,
      ih (fun x hx => h x (List.mem_cons_of_mem p hx))]
    rfl

theorem editPhones_invalid :
    ∀ (ps : List String) (oldP newP : String) (e : PyError),
      oldP ∈ ps → phoneSet newP = .error e →
      editPhones oldP newP ps = .error e := by
  intro ps oldP newP e
  induction ps with
  | nil =>
    intro hmem _
    exact absurd hmem (List.not_mem_nil oldP)
  | cons p rest ih =>
    intro hmem hset
    by_cases hp : p = oldP
    · simp only [editPhones, if_pos hp, hset]
      rfl
    · have hrest : oldP ∈ rest := by
        rcases List.mem_cons.mp hmem with h | h
        · exact absurd h.symm hp
        · exact h
      simp only [editPhones, if_neg hp, ih hrest hset]
      rfl

theorem editPhones_found :
    ∀ (a : List String) (b : List String) (oldP newP v : String),
      (∀ p ∈ a, p ≠ oldP) → phoneSet newP = .ok v →
      editPhones oldP newP (a ++ oldP :: b) = .ok (a ++ v :: b) := by
  intro a
  induction a with
  | nil =>
    intro b oldP newP v _ hset
    simp only [List.nil_append, editPhones, if_pos rfl, hset]
    rfl
  | cons p a ih =>
    intro b oldP newP v h hset
    have hp : p ≠ oldP := h p (List.mem_cons_self p a)
    simp only [List.cons_append, editPhones, if_neg hp, List.append_eq,
      ih b oldP newP v (fun x hx => h x (List.mem_cons_of_mem p hx)) hset]
    rfl

/-! ## Further helper lemmas -/

theorem isEmpty_false_of_ne {s : String} (h : s ≠ "") : s.isEmpty = false := by
  cases hs : s.isEmpty
  · rfl
  · exact absurd ((String.isEmpty_iff s).mp hs) h

theorem formatDMY_ne_empty (dt : PyDate) : formatDMY dt ≠ "" := by
  intro h
  have hdata : pad2 dt.day ++ '.' :: (pad2 dt.month ++ '.' :: natDigits dt.year)
      = [] := congrArg String.data h
  rcases List.append_eq_nil.mp hdata with ⟨_, hcons⟩
  exact List.cons_ne_nil _ _ hcons

theorem exceptMap_phoneSet_ok :
    ∀ ps : List String, (∀ q ∈ ps, phoneSet q = .ok q) →
      exceptMap phoneSet ps = .ok ps := by
  intro ps
  induction ps with
  | nil => intro _; rfl
  | cons p rest ih =>
    intro h
    simp only [exceptMap, h p (List.mem_cons_self p rest),
      ih (fun x hx => h x (List.mem_cons_of_mem p hx))]
    rfl

/-! ## The claims -/

/-- C3, counterexample: the claim confines success to the empty string
and strings of exactly 10 decimal digits, with every other non-empty
string failing; but the `Phone` setter accepts a non-empty string of ten
superscript-two characters, which are not decimal digits — Python's
`str.isdigit` is broader than the ASCII decimal digits. -/
theorem c3_phone_superscript_accepted :
    phoneSet "²²²²²²²²²²" = .ok "²²²²²²²²²²" ∧
    ("²²²²²²²²²²" : String).toList.all Char.isDigit = false ∧
    ("²²²²²²²²²²" : String) ≠ "" := by
  exact ⟨by decide, by decide, by decide⟩

/-- C3, amended: constructing or assigning a `Phone` succeeds exactly
for the empty string and for strings of exactly 10 characters all
satisfying Python's `str.isdigit` (which includes the ASCII decimal
digits but also further Unicode digit characters); the stored value is
the identical string; every other non-empty string fails with the
`ValueError` and nothing is stored. -/
theorem c3_phone_validation (s : String) :
    (s = "" → phoneSet s = .ok "") ∧
    (s ≠ "" →
      ((s.length = 10 ∧ s.toList.all pyCharIsDigit = true) → phoneSet s = .ok s) ∧
      (¬(s.length = 10 ∧ s.toList.all pyCharIsDigit = true) →
        phoneSet s = .error (.valueError "Invalid phone number format."))) := by
  constructor
  · intro h
    subst h
    rfl
  · intro hne
    have hie : s.isEmpty = false := isEmpty_false_of_ne hne
    constructor
    · intro hcond
      have hb : (decide (s.length = 10) && pyStrIsDigit s) = true := by
        unfold pyStrIsDigit
        rw [hie, hcond.2]
        simp [hcond.1]
      unfold phoneSet
      rw [if_pos hne, if_pos hb]
    · intro hcond
      have hb : (decide (s.length = 10) && pyStrIsDigit s) = false := by
        unfold pyStrIsDigit
        rw [hie]
        rcases not_and_or.mp hcond with h10 | hall
        · simp [h10]
        · have hall' : s.toList.all pyCharIsDigit = false := by
            cases hx : s.toList.all pyCharIsDigit
            · rfl
            · exact absurd hx hall
          rw [hall']
          simp
      unfold phoneSet
      rw [if_pos hne, if_neg (by rw [hb]; exact Bool.false_ne_true)]

/-- C3, witness: the ten-ASCII-digit string is accepted verbatim and a
malformed non-empty string is rejected with the `ValueError`. -/
theorem c3_phone_validation_witness :
    phoneSet "1234567890" = .ok "1234567890" ∧
    phoneSet "12ab" = .error (.valueError "Invalid phone number format.") := by
  constructor
  · exact ((c3_phone_validation "1234567890").2 (by decide)).1 (by decide)
  · exact ((c3_phone_validation "12ab").2 (by decide)).2 (by decide)

/-- C9: constructing a `Name` (the unchanged base `Field` setter) never
fails — it accepts every string including the empty one — a `Record`
with empty name is constructed without error, and that empty string
becomes a key of the `AddressBook`. -/
theorem c9_name_accepts_everything (v : String) :
    nameSet v = .ok v ∧
    mkRecord v [] "" = .ok ⟨v, [], none⟩ ∧
    (AddressBook.empty.add_record ⟨"", [], none⟩).data = [("", ⟨"", [], none⟩)] :=
  ⟨rfl, rfl, rfl⟩

/-- C7: `add_record` inserts a record keyed by its name when the key is
absent, and is a no-op — book, mapping and stored record all unchanged —
when an entry with that name already exists (first write wins). -/
theorem c7_add_record (book : AddressBook) (r : Record) :
    (lookupName book.data r.name = none →
      book.add_record r = { book with data := book.data ++ [(r.name, r)] }) ∧
    (∀ r₀ : Record, lookupName book.data r.name = some r₀ → book.add_record r = book) := by
  constructor
  · intro h
    unfold AddressBook.add_record
    rw [h]
  · intro r₀ h
    unfold AddressBook.add_record
    rw [h]

/-- C7, witness: inserting "John" into the empty book stores it keyed by
the name; re-adding a different record under the same name leaves the
book — including the originally stored record — untouched. -/
theorem c7_add_record_witness :
    AddressBook.empty.add_record ⟨"John", [], none⟩
      = ⟨[("John", ⟨"John", [], none⟩)], 3, 0⟩ ∧
    (AddressBook.mk [("John", ⟨"John", [], none⟩)] 3 0).add_record
        ⟨"John", ["1234567890"], none⟩
      = AddressBook.mk [("John", ⟨"John", [], none⟩)] 3 0 := by
  constructor
  · exact ((c7_add_record AddressBook.empty ⟨"John", [], none⟩).1 (by decide)).trans (by decide)
  · exact (c7_add_record _ ⟨"John", ["1234567890"], none⟩).2 ⟨"John", [], none⟩ (by decide)

/-- C6, counterexample: the claim promises that an unreadable or corrupt
backing store is swallowed like a missing one, but `load_from_file`
catches only `FileNotFoundError` and `json.JSONDecodeError`: an
unreadable file surfaces its `PermissionError`, and a readable file
holding valid JSON of the wrong shape (here the document `{}`) surfaces
a `KeyError` instead of leaving the fresh book in its default state. -/
theorem c6_uncaught_errors_surface :
    AddressBook.empty.load_from_file .unreadable = .error .permissionError ∧
    AddressBook.empty.load_from_file (.parsed (.obj []))
      = .error (.keyError "records_per_page") :=
  ⟨rfl, rfl⟩

/-- C6, amended: `load_from_file` swallows exactly `FileNotFoundError`
and `json.JSONDecodeError` — a missing file or one that is not
syntactically valid JSON leaves the book unchanged, so a fresh
`AddressBook` stays in its empty/default state, indistinguishable from
a first run; other failures (unreadable file, valid JSON of the wrong
shape) propagate. -/
theorem c6_soft_failure (book : AddressBook) (raw : String) :
    book.load_from_file .missing = .ok book ∧
    book.load_from_file (.notJson raw) = .ok book ∧
    AddressBook.empty.load_from_file .missing = .ok AddressBook.empty ∧
    AddressBook.empty.load_from_file (.notJson raw) = .ok AddressBook.empty :=
  ⟨rfl, rfl, rfl, rfl⟩

/-- C4, counterexample: the claim says construction with an initial
phone list forbids duplicates by value, but `Record.__init__` stores the
list as given — constructing with the same valid number twice yields two
stored entries with equal values. -/
theorem c4_init_keeps_duplicates :
    mkRecord "A" ["1234567890", "1234567890"] ""
      = .ok ⟨"A", ["1234567890", "1234567890"], none⟩ ∧
    (["1234567890", "1234567890"] : List String).count "1234567890" = 2 := by
  exact ⟨by decide, by decide⟩

/-- C4, amended: construction stores the initial phone list exactly as
given (duplicates included, no dedup check); only `add_phone`
deduplicates by value — adding a number already present is a no-op, so
`add_phone` is idempotent and adding a fresh number twice stores exactly
one entry. -/
theorem c4_add_phone_dedup (name p : String) (ps : List String) (r : Record) :
    ((∀ q ∈ ps, phoneSet q = .ok q) → mkRecord name ps "" = .ok ⟨name, ps, none⟩) ∧
    (p ∈ r.phones → r.add_phone p = .ok r) ∧
    (p ∉ r.phones → phoneSet p = .ok p →
      r.add_phone p = .ok { r with phones := r.phones ++ [p] } ∧
      ({ r with phones := r.phones ++ [p] } : Record).add_phone p
        = .ok { r with phones := r.phones ++ [p] } ∧
      (r.phones ++ [p]).count p = 1 + r.phones.count p ∧
      r.phones.count p = 0) := by
  refine ⟨?_, ?_, ?_⟩
  · intro h
    unfold mkRecord
    rw [exceptMap_phoneSet_ok ps h]
    rfl
  · intro hmem
    unfold Record.add_phone
    rw [if_pos (List.elem_iff.mpr hmem)]
  · intro hnot hset
    have hc : r.phones.contains p = false := by
      cases hx : r.phones.contains p
      · rfl
      · exact absurd (List.elem_iff.mp hx) hnot
    refine ⟨?_, ?_, ?_, ?_⟩
    · unfold Record.add_phone
      rw [if_neg (by rw [hc]; exact Bool.false_ne_true), hset]
      rfl
    · unfold Record.add_phone
      rw [if_pos (List.elem_iff.mpr (List.mem_append_right r.phones (List.mem_singleton.mpr rfl)))]
    · rw [List.count_append]
      simp [List.count_singleton]
      omega
    · exact List.count_eq_zero.mpr hnot

/-- C4, witness: adding a fresh number appends it once, and adding it a
second time changes nothing; the count of that value goes from 0 to
exactly 1. -/
theorem c4_add_phone_dedup_witness :
    (Record.mk "B" ["1111111111"] none).add_phone "2222222222"
      = .ok ⟨"B", ["1111111111", "2222222222"], none⟩ ∧
    (Record.mk "B" ["1111111111", "2222222222"] none).add_phone "2222222222"
      = .ok ⟨"B", ["1111111111", "2222222222"], none⟩ ∧
    mkRecord "A" ["1234567890"] "" = .ok ⟨"A", ["1234567890"], none⟩ := by
  have h := (c4_add_phone_dedup "A" "2222222222" ["1234567890"]
    ⟨"B", ["1111111111"], none⟩).2.2 (by decide) (by decide)
  exact ⟨h.1, h.2.1, (c4_add_phone_dedup "A" "2222222222" ["1234567890"]
    ⟨"B", ["1111111111"], none⟩).1 (by decide)⟩

/-- C5: `edit_phone(old, new)` fails with the not-found `ValueError`
when no phone equals `old`, leaving the list unchanged (the call
returns only the error); when a phone matches but `new` is rejected by
the `Phone` setter, the setter's error propagates before any mutation,
so the matching phone keeps its value; when `new` is accepted, the
first phone equal to `old` (the list decomposes as `a ++ old :: b` with
no match in `a`) is replaced in place, preserving its position. -/
theorem c5_edit_phone (r : Record) (oldP newP : String) :
    ((∀ p ∈ r.phones, p ≠ oldP) →
      r.edit_phone oldP newP = .error (.valueError "Phone number not found.")) ∧
    (∀ e : PyError, oldP ∈ r.phones → phoneSet newP = .error e →
      r.edit_phone oldP newP = .error e) ∧
    (∀ (a b : List String) (v : String),
      r.phones = a ++ oldP :: b → (∀ p ∈ a, p ≠ oldP) → phoneSet newP = .ok v →
      r.edit_phone oldP newP = .ok { r with phones := a ++ v :: b }) := by
  refine ⟨?_, ?_, ?_⟩
  · intro h
    unfold Record.edit_phone
    rw [editPhones_not_found r.phones oldP newP h]
    rfl
  · intro e hmem hset
    unfold Record.edit_phone
    rw [editPhones_invalid r.phones oldP newP e hmem hset]
    rfl
  · intro a b v hdec hfirst hset
    unfold Record.edit_phone
    rw [hdec, editPhones_found a b oldP newP v hfirst hset]
    rfl

/-- C5, witness: the spec's own scenario — the third phone is replaced
in place, and editing an absent number or supplying a malformed new
number fails with the respective errors. -/
theorem c5_edit_phone_witness :
    (Record.mk "John" ["3333333333", "4444444444", "1234567890", "5555555555"] none).edit_phone
        "1234567890" "1112223333"
      = .ok ⟨"John", ["3333333333", "4444444444", "1112223333", "5555555555"], none⟩ ∧
    (Record.mk "John" ["3333333333"] none).edit_phone "9999999999" "1112223333"
      = .error (.valueError "Phone number not found.") ∧
    (Record.mk "John" ["3333333333"] none).edit_phone "3333333333" "12ab"
      = .error (.valueError "Invalid phone number format.") := by
  refine ⟨?_, ?_, ?_⟩
  · exact (c5_edit_phone ⟨"John", ["3333333333", "4444444444", "1234567890", "5555555555"], none⟩
      "1234567890" "1112223333").2.2 ["3333333333", "4444444444"] ["5555555555"]
      "1112223333" (by decide) (by decide) (by decide)
  · exact (c5_edit_phone ⟨"John", ["3333333333"], none⟩ "9999999999" "1112223333").1 (by decide)
  · exact (c5_edit_phone ⟨"John", ["3333333333"], none⟩ "3333333333" "12ab").2.1
      (.valueError "Invalid phone number format.") (by decide) (by decide)

/-- C10: with positive `records_per_page`, `iterator` never raises and
yields finitely many batches — a falsy `batch_size` (absent or 0) is
replaced by `records_per_page`, so the slicing step is positive; the
batches concatenate to the records in insertion order and each batch
holds between 1 and the effective batch size records. -/
theorem c10_iterator (book : AddressBook) (batchSize : Option Nat)
    (hpos : 0 < book.records_per_page) :
    0 < effBatch book batchSize ∧
    book.iterator batchSize
      = .ok (chunks (effBatch book batchSize) (book.data.map (·.2))) ∧
    (chunks (effBatch book batchSize) (book.data.map (·.2))).flatten
      = book.data.map (·.2) ∧
    ∀ b ∈ chunks (effBatch book batchSize) (book.data.map (·.2)),
      1 ≤ b.length ∧ b.length ≤ effBatch book batchSize := by
  have heff : 0 < effBatch book batchSize := by
    cases batchSize with
    | none => exact hpos
    | some n =>
      cases n with
      | zero => exact hpos
      | succ n => exact Nat.succ_pos n
  refine ⟨heff, ?_, chunks_flatten _ heff _, ?_⟩
  · unfold AddressBook.iterator
    rw [if_neg (by omega)]
  · intro b hb
    have h := chunks_mem _ heff _ b hb
    exact ⟨List.length_pos.mpr h.1, h.2⟩

/-- C10, witness: five records with `batch_size=2` come out as three
batches of sizes 2, 2, 1, in insertion order. -/
theorem c10_iterator_witness :
    (AddressBook.mk
      [("a", ⟨"a", [], none⟩), ("b", ⟨"b", [], none⟩), ("c", ⟨"c", [], none⟩),
       ("d", ⟨"d", [], none⟩), ("e", ⟨"e", [], none⟩)] 3 0).iterator (some 2)
      = .ok [[⟨"a", [], none⟩, ⟨"b", [], none⟩],
             [⟨"c", [], none⟩, ⟨"d", [], none⟩],
             [⟨"e", [], none⟩]] := by
  exact ((c10_iterator (AddressBook.mk
      [("a", ⟨"a", [], none⟩), ("b", ⟨"b", [], none⟩), ("c", ⟨"c", [], none⟩),
       ("d", ⟨"d", [], none⟩), ("e", ⟨"e", [], none⟩)] 3 0) (some 2)
    (by decide)).2.1).trans (by decide)

/-- C8, counterexample: "01.01.0090" matches the fixed DD.MM.YYYY
pattern (2-digit day, 2-digit month, 4-digit year) and is a valid
calendar date; construction succeeds and stores the date with year 90,
but re-rendering produces "01.01.90" — `strftime`'s `%Y` does not
restore the leading zeros — so the round trip is not the identical
string. -/
theorem c8_small_year_roundtrip_fails :
    birthdaySet "01.01.0090" = .ok (some ⟨90, 1, 1⟩) ∧
    birthdayStr (some ⟨90, 1, 1⟩) = "01.01.90" ∧
    ("01.01.90" : String) ≠ "01.01.0090" := by
  exact ⟨by decide, by decide, by decide⟩

/-- C8, amended: for every valid calendar date with year 1000-9999, the
DD.MM.YYYY rendering parses back to exactly that stored calendar-date
value (not the string) and re-renders to the identical string;
rendering an unset birthday yields the empty string.  For valid dates
whose 4-digit year has leading zeros (years below 1000) parsing
succeeds but re-rendering drops the zeros. -/
theorem c8_birthday_roundtrip (y m d : Nat)
    (hv : validDate y m d = true) (hy : 1000 ≤ y) :
    birthdaySet (formatDMY ⟨y, m, d⟩) = .ok (some ⟨y, m, d⟩) ∧
    birthdayStr (some ⟨y, m, d⟩) = formatDMY ⟨y, m, d⟩ ∧
    birthdayStr none = "" := by
  refine ⟨?_, rfl, rfl⟩
  unfold birthdaySet
  rw [if_pos (formatDMY_ne_empty ⟨y, m, d⟩), strptime_format hv hy]

/-- C8, witness: the spec's example date 18.02.1990 parses to the
calendar date and that date renders back to the same string. -/
theorem c8_birthday_roundtrip_witness :
    birthdaySet "18.02.1990" = .ok (some ⟨1990, 2, 18⟩) ∧
    birthdayStr (some ⟨1990, 2, 18⟩) = "18.02.1990" := by
  have h := c8_birthday_roundtrip 1990 2 18 (by decide) (by decide)
  have he : formatDMY ⟨1990, 2, 18⟩ = "18.02.1990" := by decide
  exact ⟨he ▸ h.1, he ▸ h.2.1⟩

/-- C1, code bug: for an unset birthday `days_to_birthday` does return
the `None` sentinel, but for every record whose birthday is set it
cannot compute the claimed day count: `today` is the `datetime` from
`datetime.today()` while `next_birthday_date` is a plain `date`, and
CPython raises `TypeError` on `today > next_birthday_date` — so
whenever the birthday's month/day exists in today's year the call
raises instead of returning an integer ≥ 0 (and for Feb 29 birthdays in
a non-leap year it raises `ValueError` already at `replace`). -/
theorem c1_days_to_birthday_raises (r : Record) (today : PyDateTime) (b : PyDate)
    (hb : r.birthday = some b)
    (hv : validDate today.date.year b.month b.day = true) :
    r.days_to_birthday today
      = .error (.typeError "can't compare datetime.datetime to datetime.date") ∧
    (∀ r₂ : Record, r₂.birthday = none → r₂.days_to_birthday today = .ok none) := by
  constructor
  · simp only [Record.days_to_birthday, hb]
    unfold pyDateReplaceYear
    rw [if_pos hv]
    rfl
  · intro r₂ h₂
    simp only [Record.days_to_birthday, h₂]

/-- C1, witness: a concrete record with birthday 18.02.1990 raises the
`TypeError` on any concrete "today", and an unset birthday returns the
sentinel. -/
theorem c1_days_to_birthday_raises_witness :
    (Record.mk "John" ["3333333333"] (some ⟨1990, 2, 18⟩)).days_to_birthday
        ⟨⟨2023, 10, 12⟩, 0⟩
      = .error (.typeError "can't compare datetime.datetime to datetime.date") ∧
    (Record.mk "Jane" [] none).days_to_birthday ⟨⟨2023, 10, 12⟩, 0⟩ = .ok none := by
  have h := c1_days_to_birthday_raises (Record.mk "John" ["3333333333"] (some ⟨1990, 2, 18⟩))
    ⟨⟨2023, 10, 12⟩, 0⟩ ⟨1990, 2, 18⟩ rfl (by decide)
  exact ⟨h.1, h.2 (Record.mk "Jane" [] none) rfl⟩

/-- C2, code bug: `save_to_file` hands `record.__dict__` to `json.dump`,
and those attribute values are `Name`/`Phone`/`Birthday` objects the
default encoder cannot serialize; saving any book that contains at
least one record therefore raises
`TypeError: Object of type Name is not JSON serializable` (the demo
`main()` does exactly this), so the save-then-load round trip can never
reproduce a non-empty directory. -/
theorem c2_save_raises (book : AddressBook) (n : String) (r : Record)
    (rest : List (String × Record)) (hdata : book.data = (n, r) :: rest) :
    book.save_to_file
      = .error (.typeError "Object of type Name is not JSON serializable") := by
  unfold AddressBook.save_to_file
  rw [hdata]
  rfl

/-- C2, witness: saving a book holding the single record "John" raises
the encoder's `TypeError`. -/
theorem c2_save_raises_witness :
    (AddressBook.mk [("John", ⟨"John", ["3333333333"], none⟩)] 3 0).save_to_file
      = .error (.typeError "Object of type Name is not JSON serializable") :=
  c2_save_raises (AddressBook.mk [("John", ⟨"John", ["3333333333"], none⟩)] 3 0)
    "John" ⟨"John", ["3333333333"], none⟩ [] rfl
